import Mathlib

/- A verification development for the core state machines of "The Mind", a 3D
   thought-graph visualizer: database change detection (useDatabaseSync.ts),
   spatial windowed loading and reasoning-path derivation (mindStore),
   node activation decay (activationStore), reasoning-path traversal
   (thinkingStore), timeline visibility (timelineStore), and the renderable
   connection set (MindSpace). Numbers are modelled over ℚ; JS Maps are
   modelled as functions into Option. -/

namespace TheMind

/-- A database version token: the pair of max rowids returned by the backing
store's cheap version query, as in the DbVersion interface of
useDatabaseSync.ts. -/
structure DbVersion where
  thought_max_id : Int
  connection_max_id : Int
deriving DecidableEq, Repr

/-- The component-wise difference test in checkForUpdates
(useDatabaseSync.ts): a poll triggers a reload when either component of the
fresh token differs from the last accepted token. -/
def versionChanged (prev version : DbVersion) : Bool :=
  version.thought_max_id != prev.thought_max_id ||
  version.connection_max_id != prev.connection_max_id

/-- One poll step of checkForUpdates: on a changed token, accept the new
token and reload (second component true); otherwise keep the old token and
do not reload. -/
def syncStep (prev version : DbVersion) : DbVersion × Bool :=
  if versionChanged prev version then (version, true) else (prev, false)

/-- The sequence of reload decisions produced by a sequence of polled
tokens, starting from last accepted token prev. -/
def syncRun (prev : DbVersion) : List DbVersion → List Bool
  | [] => []
  | v :: vs => (syncStep prev v).2 :: syncRun (syncStep prev v).1 vs

/-- The token accepted after a sequence of polls. -/
def lastAccepted (prev : DbVersion) : List DbVersion → DbVersion
  | [] => prev
  | v :: vs => lastAccepted (syncStep prev v).1 vs

/-- The initial lastVersionRef value of useDatabaseSync. -/
def initialVersion : DbVersion := ⟨-1, -1⟩

/-- A thought node (types.ts), with the fields the core logic reads. -/
structure Thought where
  id : String
  content : String
  importance : ℚ
  posX : ℚ
  posY : ℚ
  posZ : ℚ
  createdAt : ℚ
deriving DecidableEq, Repr

/-- A connection edge between two thoughts (types.ts). -/
structure Connection where
  id : String
  fromThought : String
  toThought : String
  strength : ℚ
deriving DecidableEq, Repr

/-- Spatial loading threshold from mindStore: above this thought count the
store switches to camera-based loading. -/
def SPATIAL_THRESHOLD : Nat := 500

/-- Default radius of a loadNearCamera query (mindStore). -/
def DEFAULT_SPATIAL_RADIUS : ℚ := 80

/-- Default result cap of a loadNearCamera query (mindStore). -/
def DEFAULT_SPATIAL_LIMIT : Nat := 300

/-- The load mode decided by loadFromDatabase: either fetch the whole graph
or fetch a radius-bounded, count-capped window. -/
inductive LoadMode where
  | Full : LoadMode
  | Windowed (radius : ℚ) (limit : Nat) : LoadMode
deriving DecidableEq, Repr

/-- The decision in loadFromDatabase (mindStore): windowed (spatial) loading
exactly when the total thought count exceeds SPATIAL_THRESHOLD; a windowed
load uses loadNearCamera's default radius and limit. -/
def decideLoadMode (totalCount : Nat) : LoadMode :=
  if totalCount > SPATIAL_THRESHOLD then
    LoadMode.Windowed DEFAULT_SPATIAL_RADIUS DEFAULT_SPATIAL_LIMIT
  else LoadMode.Full

/-- Modelled from the spec: the backing store's spatial query
get_thoughts_near(x, y, z, radius, limit). Its Rust implementation is not
among this repository's frontend sources; per the interface contract it
returns the thoughts within the given radius of the center, capped at limit
results. -/
def get_thoughts_near (db : List Thought) (x y z radius : ℚ) (limit : Nat) :
    List Thought :=
  (db.filter fun t =>
    decide ((t.posX - x) ^ 2 + (t.posY - y) ^ 2 + (t.posZ - z) ^ 2 ≤ radius ^ 2)).take limit

/-- The thought set of the snapshot installed by loadNearCamera (mindStore)
at its default radius and limit. -/
def loadNearCameraThoughts (db : List Thought) (x y z : ℚ) : List Thought :=
  get_thoughts_near db x y z DEFAULT_SPATIAL_RADIUS DEFAULT_SPATIAL_LIMIT

/-- A per-thought activation record (activationStore.ts). -/
structure NodeActivation where
  thoughtId : String
  level : ℚ
  lastActivatedAt : ℚ
  decayStartsAt : ℚ
deriving DecidableEq, Repr

/-- The activation store state: the id-keyed record map and the tuning
values (activationStore.ts). -/
structure ActivationState where
  activations : String → Option NodeActivation
  glowDuration : ℚ
  decayDuration : ℚ
  proximityBoost : ℚ

/-- The store's initial settings: empty map, 30 s glow, 60 s decay, 30%
proximity boost. -/
def initialActivationState : ActivationState where
  activations := fun _ => none
  glowDuration := 30000
  decayDuration := 60000
  proximityBoost := 3 / 10

/-- activateNode: (re)create the record for the id, clamping the intensity
at 1, stamping now as the activation time and scheduling decay after the
glow duration. -/
def activateNode (s : ActivationState) (thoughtId : String) (intensity now : ℚ) :
    ActivationState :=
  { s with activations := fun k =>
      if k = thoughtId then
        some { thoughtId := thoughtId
               level := min 1 intensity
               lastActivatedAt := now
               decayStartsAt := now + s.glowDuration }
      else s.activations k }

/-- getActivation (activationStore.ts): the record's level during the glow
period, then an eased quadratic decay with progress clipped at 1; unknown
ids read 0. -/
def getActivation (s : ActivationState) (thoughtId : String) (now : ℚ) : ℚ :=
  match s.activations thoughtId with
  | none => 0
  | some a =>
    if now < a.decayStartsAt then a.level
    else
      let decayElapsed := now - a.decayStartsAt
      let decayProgress := min 1 (decayElapsed / s.decayDuration)
      a.level * (1 - decayProgress ^ 2)

/-- The JS idiom x || d on an optional number: the default replaces both a
missing and a zero (falsy) value. -/
def jsOr (x : Option ℚ) (d : ℚ) : ℚ :=
  match x with
  | none => d
  | some v => if v = 0 then d else v

/-- The radius at which proximity starts affecting activation
(setProximityActivation). -/
def maxProximityDistance : ℚ := 20

/-- setProximityActivation (activationStore.ts): inside the proximity
radius, raise the record to the distance-scaled boost when that boost beats
the current level, with a fixed 2 s decay window; otherwise leave the store
untouched. -/
def setProximityActivation (s : ActivationState) (thoughtId : String) (distance now : ℚ) :
    ActivationState :=
  let existing := s.activations thoughtId
  if distance < maxProximityDistance then
    let proximityLevel := (1 - distance / maxProximityDistance) * s.proximityBoost
    let shouldUpdate :=
      match existing with
      | none => true
      | some a => decide (a.level < proximityLevel)
    if shouldUpdate then
      { s with activations := fun k =>
          if k = thoughtId then
            some { thoughtId := thoughtId
                   level := max (jsOr (existing.map (fun a => a.level)) 0) proximityLevel
                   lastActivatedAt := jsOr (existing.map (fun a => a.lastActivatedAt)) now
                   decayStartsAt := now + 2000 }
          else s.activations k }
    else s
  else s

/-- The level stored for an id, reading 0 when no record exists (this is
what both getActivation and the JS fallback existing-level-or-0 see). -/
def levelOf (s : ActivationState) (thoughtId : String) : ℚ :=
  match s.activations thoughtId with
  | none => 0
  | some a => a.level

/-- The decay start stored for an id, if a record exists. -/
def decayStartOf (s : ActivationState) (thoughtId : String) : Option ℚ :=
  (s.activations thoughtId).map (fun a => a.decayStartsAt)

/-- The reasoning-path traversal state (thinkingStore.ts). -/
structure ThinkingState where
  activePath : List String
  pathProgress : Nat
  isThinking : Bool
  synthesisId : Option String
deriving DecidableEq, Repr

/-- thinkingStore.getActivation: an id off the path reads 0; the synthesis
node reads 1 once the cursor reaches the last position and 0.3 before; a
node at or behind the cursor reads the distance falloff; a node ahead of
the cursor reads the 0.15 foreshadowing value. -/
def getThinkingActivation (s : ThinkingState) (thoughtId : String) : ℚ :=
  if !s.isThinking && s.activePath.isEmpty then 0
  else
    match s.activePath.indexOf? thoughtId with
    | none => 0
    | some index =>
      if s.synthesisId = some thoughtId then
        if s.activePath.length - 1 ≤ s.pathProgress then 1 else 3 / 10
      else if index ≤ s.pathProgress then
        max (2 / 5) (1 - ((s.pathProgress - index : Nat) : ℚ) * (3 / 20))
      else 3 / 20

/-- The timeline (temporal visibility) state (timelineStore.ts). -/
structure TimelineState where
  isActive : Bool
  currentTime : ℚ
  startTime : ℚ
  endTime : ℚ
  isPlaying : Bool
  playbackSpeed : ℚ
deriving DecidableEq, Repr

/-- getProgress (timelineStore.ts): the fraction of the way through the
timeline range; a degenerate range reads 1. -/
def getProgress (s : TimelineState) : ℚ :=
  if s.endTime = s.startTime then 1
  else (s.currentTime - s.startTime) / (s.endTime - s.startTime)

/-- setProgress (timelineStore.ts): clamp the fraction to the unit interval
and place the current time at that fraction of the range. -/
def setProgress (s : TimelineState) (progress : ℚ) : TimelineState :=
  let clampedProgress := max 0 (min 1 progress)
  { s with currentTime := s.startTime + (s.endTime - s.startTime) * clampedProgress }

/-- isVisible (timelineStore.ts): out of timeline mode everything shows; in
timeline mode an item shows once created at or before the virtual clock. -/
def timelineIsVisible (s : TimelineState) (createdAt : ℚ) : Bool :=
  if !s.isActive then true
  else decide (createdAt ≤ s.currentTime)

/-- getVisibility (timelineStore.ts): 1 out of timeline mode; otherwise 0
before the creation time, then a 2 s linear fade-in, then 1. -/
def getVisibility (s : TimelineState) (createdAt : ℚ) : ℚ :=
  if !s.isActive then 1
  else if s.currentTime < createdAt then 0
  else
    let timeSinceAppeared := s.currentTime - createdAt
    if timeSinceAppeared < 2000 then timeSinceAppeared / 2000 else 1

/-- The sort order of findReasoningPath: strongest connection first (the
JS comparator subtracts strengths to sort descending). -/
def strengthDescRel : Connection → Connection → Prop :=
  fun a b => b.strength ≤ a.strength

instance instDecStrengthDescRel : DecidableRel strengthDescRel :=
  fun a b => inferInstanceAs (Decidable (b.strength ≤ a.strength))

/-- The endpoint of a connection other than the new thought, as computed in
findReasoningPath's loop body. -/
def otherEnd (newThoughtId : String) (c : Connection) : String :=
  if c.fromThought = newThoughtId then c.toThought else c.fromThought

/-- One iteration of findReasoningPath's walk: append the connected id when
that thought exists in the snapshot and is not yet on the path. -/
def pathStep (newThoughtId : String) (thoughts : List Thought)
    (path : List String) (c : Connection) : List String :=
  let connectedId := otherEnd newThoughtId c
  match thoughts.find? (fun t => t.id == connectedId) with
  | some _ => if connectedId ∈ path then path else path ++ [connectedId]
  | none => path

/-- The maximum reasoning-path length (findReasoningPath). -/
def maxPathLength : Nat := 4

/-- The connections touching the new thought (connectedToNew in
findReasoningPath). -/
def connectedTo (newThoughtId : String) (connections : List Connection) :
    List Connection :=
  connections.filter fun c =>
    c.toThought == newThoughtId || c.fromThought == newThoughtId

/-- findReasoningPath (mindStore): sort the touching connections by strength
descending, walk up to maxPathLength - 1 distinct existing connected
thoughts in that order, then append the new thought as the synthesis
terminus; with no touching connection the path is just the new thought. -/
def findReasoningPath (newThoughtId : String) (thoughts : List Thought)
    (connections : List Connection) : List String :=
  let connectedToNew := connectedTo newThoughtId connections
  if connectedToNew.length = 0 then [newThoughtId]
  else
    let sortedConnections := connectedToNew.insertionSort strengthDescRel
    let walked :=
      (sortedConnections.take
        (min sortedConnections.length (maxPathLength - 1))).foldl
        (pathStep newThoughtId thoughts) []
    walked ++ [newThoughtId]

/-- The axon connections actually rendered by MindSpace: each connection is
emitted with its two resolved endpoint thoughts, and skipped when either
endpoint is missing from the snapshot. -/
def renderedAxons (thoughts : List Thought) (conns : List Connection) :
    List (Connection × Thought × Thought) :=
  conns.filterMap fun c =>
    match thoughts.find? (fun t => t.id == c.fromThought),
          thoughts.find? (fun t => t.id == c.toThought) with
    | some fromT, some toT => some (c, fromT, toT)
    | _, _ => none

/-- MindSpace's visibleConnections: all connections outside timeline mode;
in timeline mode only those whose endpoints both resolve and are
timeline-visible. -/
def visibleConnections (isTimeline : Bool) (thoughts : List Thought)
    (connections : List Connection) (tl : TimelineState) : List Connection :=
  if !isTimeline then connections
  else connections.filter fun c =>
    match thoughts.find? (fun t => t.id == c.fromThought),
          thoughts.find? (fun t => t.id == c.toThought) with
    | some fromT, some toT =>
        timelineIsVisible tl fromT.createdAt && timelineIsVisible tl toT.createdAt
    | _, _ => false

/-- The two existing thoughts of the reasoning-path scenario. -/
def scenarioThoughts : List Thought :=
  [⟨"t1", "", 0, 0, 0, 0, 0⟩, ⟨"t2", "", 0, 0, 0, 0, 0⟩]

/-- The two connections of the reasoning-path scenario: the new thought t9
linked to t1 with strength 0.9 and to t2 with strength 0.3. -/
def scenarioConnections : List Connection :=
  [⟨"c1", "t9", "t1", 9 / 10⟩, ⟨"c2", "t9", "t2", 3 / 10⟩]

/-- The timeline state of the scrubbing scenario: range 1000 to 5000,
current time 3000, timeline mode off. -/
def scenarioTimeline : TimelineState :=
  ⟨false, 3000, 1000, 5000, false, 100⟩

/-- The reload flag of a poll step is exactly the component-wise difference
test. -/
lemma syncStep_snd (prev v : DbVersion) : (syncStep prev v).2 = versionChanged prev v := by
  unfold syncStep
  by_cases h : versionChanged prev v <;> simp [h]

/-- Processing one more poll appends the decision taken against the token
accepted over the earlier polls. -/
lemma syncRun_append (prev : DbVersion) (vs : List DbVersion) (v : DbVersion) :
    syncRun prev (vs ++ [v]) = syncRun prev vs ++ [(syncStep (lastAccepted prev vs) v).2] := by
  induction vs generalizing prev with
  | nil => simp [syncRun, lastAccepted]
  | cons w ws ih => simp [syncRun, lastAccepted, ih]

/-- Claim C1 (counterexample): starting from the initial token, polling
(5,5) and then (3,5) triggers a reload on the second poll even though
neither component strictly increased over the accepted token (5,5) — the
detector fires on any difference, not only on strict increases, so the
claimed "reload iff a component strictly increased" is false. -/
theorem syncRun_reload_without_increase :
    lastAccepted initialVersion [⟨5, 5⟩] = ⟨5, 5⟩ ∧
    (syncRun initialVersion [⟨5, 5⟩, ⟨3, 5⟩]).getLast? = some true ∧
    ¬((3 : Int) > 5 ∨ (5 : Int) > 5) := by
  refine ⟨by decide, by decide, by decide⟩

/-- Claim C1 (amended): for every sequence of polled version tokens, a poll
triggers a reload if and only if at least one component of its token
differs — in either direction — from the last accepted token; a poll whose
token equals the accepted token in both components triggers no reload. -/
theorem checkForUpdates_reload_iff_changed (prev : DbVersion) (vs : List DbVersion)
    (v : DbVersion) :
    (syncRun prev (vs ++ [v])).getLast? = some true ↔
      (v.thought_max_id ≠ (lastAccepted prev vs).thought_max_id ∨
       v.connection_max_id ≠ (lastAccepted prev vs).connection_max_id) := by
  rw [syncRun_append, List.getLast?_concat]
  simp [syncStep_snd, versionChanged, bne_iff_ne]

/-- Claim C2: with at most 500 thoughts the decision is a full load; above
500 it is a windowed load at radius 80 and cap 300, and the thought set a
windowed load materializes never exceeds 300 entries. -/
theorem spatial_threshold_decision :
    (∀ n : Nat, n ≤ SPATIAL_THRESHOLD → decideLoadMode n = LoadMode.Full) ∧
    (∀ n : Nat, SPATIAL_THRESHOLD < n →
        decideLoadMode n = LoadMode.Windowed DEFAULT_SPATIAL_RADIUS DEFAULT_SPATIAL_LIMIT) ∧
    decideLoadMode 600 = LoadMode.Windowed 80 300 ∧
    (∀ (db : List Thought) (x y z : ℚ), (loadNearCameraThoughts db x y z).length ≤ 300) := by
  refine ⟨?_, ?_, ?_, ?_⟩
  · intro n hn
    have h : ¬(SPATIAL_THRESHOLD < n) := not_lt.mpr hn
    simp [decideLoadMode, h]
  · intro n hn
    simp [decideLoadMode, hn]
  · norm_num [decideLoadMode, SPATIAL_THRESHOLD, DEFAULT_SPATIAL_RADIUS, DEFAULT_SPATIAL_LIMIT]
  · intro db x y z
    exact List.length_take_le _ _

/-- Witness for C2: the decision evaluated on both sides of the threshold,
and a concrete windowed load staying within the cap. -/
theorem spatial_threshold_decision_witness :
    (500 ≤ SPATIAL_THRESHOLD ∧ decideLoadMode 500 = LoadMode.Full) ∧
    (SPATIAL_THRESHOLD < 600 ∧
      decideLoadMode 600 = LoadMode.Windowed DEFAULT_SPATIAL_RADIUS DEFAULT_SPATIAL_LIMIT) ∧
    (loadNearCameraThoughts [] 0 0 0).length ≤ 300 :=
  ⟨⟨by decide, spatial_threshold_decision.1 500 (by decide)⟩,
   ⟨by decide, spatial_threshold_decision.2.1 600 (by decide)⟩,
   spatial_threshold_decision.2.2.2 [] 0 0 0⟩

/-- Claim C7: on a non-degenerate range, getProgress is the linear fraction
of the range, setProgress with a unit-interval fraction places the current
time at that fraction, the round trip returns the fraction, and the
1000-5000 scenario evaluates to 0.5 and 2000. -/
theorem getProgress_setProgress (s : TimelineState) (p : ℚ)
    (h : s.startTime < s.endTime) (hp0 : 0 ≤ p) (hp1 : p ≤ 1) :
    getProgress s = (s.currentTime - s.startTime) / (s.endTime - s.startTime) ∧
    (setProgress s p).currentTime = s.startTime + (s.endTime - s.startTime) * p ∧
    getProgress (setProgress s p) = p ∧
    getProgress scenarioTimeline = 1 / 2 ∧
    (setProgress scenarioTimeline (1 / 4)).currentTime = 2000 := by
  have hne : s.endTime ≠ s.startTime := ne_of_gt h
  have hsub : s.endTime - s.startTime ≠ 0 := sub_ne_zero.mpr hne
  have hclamp : max 0 (min 1 p) = p := by
    rw [min_eq_right hp1, max_eq_right hp0]
  refine ⟨?_, ?_, ?_, ?_, ?_⟩
  · simp [getProgress, hne]
  · simp [setProgress, hclamp]
  · simp only [getProgress, setProgress, hclamp]
    rw [if_neg hne, add_sub_cancel_left, mul_div_cancel_left₀ _ hsub]
  · norm_num [getProgress, scenarioTimeline]
  · norm_num [setProgress, scenarioTimeline, min_def, max_def]

/-- Witness for C7: the scrubbing scenario round trip at fraction 1/4. -/
theorem getProgress_setProgress_witness :
    scenarioTimeline.startTime < scenarioTimeline.endTime ∧
    (0 : ℚ) ≤ 1 / 4 ∧ (1 / 4 : ℚ) ≤ 1 ∧
    getProgress (setProgress scenarioTimeline (1 / 4)) = 1 / 4 :=
  ⟨by norm_num [scenarioTimeline], by norm_num, by norm_num,
   (getProgress_setProgress scenarioTimeline (1 / 4)
      (by norm_num [scenarioTimeline]) (by norm_num) (by norm_num)).2.2.1⟩

/-- Claim C3 (counterexample): activate accepts any intensity, and a
negative intensity yields a record whose read level strictly rises over the
decay interval (from -1 at decay start to -3/4 halfway through), so the
claimed monotone non-increase over all records created by activate is
false. -/
theorem getActivation_decay_not_monotone :
    getActivation (activateNode initialActivationState "t1" (-1) 0) "t1" 30000 = -1 ∧
    getActivation (activateNode initialActivationState "t1" (-1) 0) "t1" 60000 = -(3 / 4) ∧
    ¬(getActivation (activateNode initialActivationState "t1" (-1) 0) "t1" 60000
        ≤ getActivation (activateNode initialActivationState "t1" (-1) 0) "t1" 30000) := by
  refine ⟨?_, ?_, ?_⟩ <;>
    norm_num [getActivation, activateNode, initialActivationState, min_def]

/-- Claim C3 (amended): for a record created by activate with non-negative
intensity, the read level equals the stored level before the decay start,
is monotonically non-increasing over the decay interval, and is exactly 0
at decay start plus decay duration; unknown ids read 0; and the default
30s/60s scenario at intensity 1 reads 1 at t=29000, 3/4 at t=60000, and 0
at t=90000. -/
theorem getActivation_glow_decay (s : ActivationState) (id : String) (intensity t0 : ℚ)
    (hD : 0 < s.decayDuration) (hi : 0 ≤ intensity) :
    (∀ t, t < t0 + s.glowDuration →
        getActivation (activateNode s id intensity t0) id t = min 1 intensity) ∧
    (∀ t1 t2, t0 + s.glowDuration ≤ t1 → t1 ≤ t2 →
        getActivation (activateNode s id intensity t0) id t2
          ≤ getActivation (activateNode s id intensity t0) id t1) ∧
    getActivation (activateNode s id intensity t0) id
        (t0 + s.glowDuration + s.decayDuration) = 0 ∧
    (∀ (s' : ActivationState) (id' : String) (t : ℚ),
        s'.activations id' = none → getActivation s' id' t = 0) ∧
    getActivation (activateNode initialActivationState "t1" 1 0) "t1" 29000 = 1 ∧
    getActivation (activateNode initialActivationState "t1" 1 0) "t1" 60000 = 3 / 4 ∧
    getActivation (activateNode initialActivationState "t1" 1 0) "t1" 90000 = 0 := by
  have hrec : (activateNode s id intensity t0).activations id =
      some ⟨id, min 1 intensity, t0, t0 + s.glowDuration⟩ := by
    simp [activateNode]
  have hdur : (activateNode s id intensity t0).decayDuration = s.decayDuration := rfl
  have hL0 : 0 ≤ min 1 intensity := le_min (by norm_num) hi
  refine ⟨?_, ?_, ?_, ?_, ?_, ?_, ?_⟩
  · intro t ht
    simp [getActivation, hrec, ht]
  · intro t1 t2 h1 h12
    have h2 : t0 + s.glowDuration ≤ t2 := le_trans h1 h12
    simp only [getActivation, hrec, hdur]
    rw [if_neg (not_lt.mpr h1), if_neg (not_lt.mpr h2)]
    have hp1nn : (0 : ℚ) ≤ min 1 ((t1 - (t0 + s.glowDuration)) / s.decayDuration) :=
      le_min (by norm_num) (div_nonneg (sub_nonneg.mpr h1) hD.le)
    have hple : min 1 ((t1 - (t0 + s.glowDuration)) / s.decayDuration)
        ≤ min 1 ((t2 - (t0 + s.glowDuration)) / s.decayDuration) :=
      min_le_min le_rfl
        ((div_le_div_iff_of_pos_right hD).mpr (sub_le_sub_right h12 _))
    have hsq := pow_le_pow_left₀ hp1nn hple 2
    exact mul_le_mul_of_nonneg_left (sub_le_sub_left hsq 1) hL0
  · simp only [getActivation, hrec, hdur]
    rw [if_neg (not_lt.mpr (by linarith [hD.le]))]
    have helapsed : t0 + s.glowDuration + s.decayDuration - (t0 + s.glowDuration)
        = s.decayDuration := by ring
    rw [helapsed, div_self hD.ne', min_self]
    ring
  · intro s' id' t h
    simp [getActivation, h]
  · norm_num [getActivation, activateNode, initialActivationState, min_def]
  · norm_num [getActivation, activateNode, initialActivationState, min_def]
  · norm_num [getActivation, activateNode, initialActivationState, min_def]

/-- Witness for C3: the amended theorem applied to the default store at
intensity 1, reading full level late in the glow period. -/
theorem getActivation_glow_decay_witness :
    0 < initialActivationState.decayDuration ∧ (0 : ℚ) ≤ 1 ∧
    getActivation (activateNode initialActivationState "t1" 1 0) "t1" 29000 = 1 :=
  ⟨by norm_num [initialActivationState], by norm_num,
   (getActivation_glow_decay initialActivationState "t1" 1 0
      (by norm_num [initialActivationState]) (by norm_num)).2.2.2.2.1⟩

/-- Claim C8: within the 20-unit radius the stored level becomes the max of
the previous level and the distance-scaled boost, the call never lowers the
stored level, an update installs the 2-second decay window, an existing
record at least as high as the boost is left untouched, and at or beyond
the radius nothing changes. -/
theorem setProximityActivation_spec (s : ActivationState) (id : String) (d now : ℚ)
    (hB : s.proximityBoost = 3 / 10) :
    (d < 20 → levelOf (setProximityActivation s id d now) id
        = max (levelOf s id) ((1 - d / 20) * (3 / 10))) ∧
    levelOf s id ≤ levelOf (setProximityActivation s id d now) id ∧
    (d < 20 → levelOf s id < (1 - d / 20) * (3 / 10) →
        decayStartOf (setProximityActivation s id d now) id = some (now + 2000)) ∧
    (d < 20 → ∀ a, s.activations id = some a → (1 - d / 20) * (3 / 10) ≤ a.level →
        setProximityActivation s id d now = s) ∧
    (20 ≤ d → setProximityActivation s id d now = s) := by
  have jsOr_some : ∀ v : ℚ, jsOr (some v) 0 = v := by
    intro v
    by_cases h : v = 0 <;> simp [jsOr, h]
  have h1 : d < 20 → levelOf (setProximityActivation s id d now) id
      = max (levelOf s id) ((1 - d / 20) * (3 / 10)) := by
    intro hd
    rcases hact : s.activations id with _ | a
    · simp [setProximityActivation, hact, hd, hB, maxProximityDistance, levelOf, jsOr]
    · by_cases hlt : a.level < (1 - d / 20) * (3 / 10)
      · simp [setProximityActivation, hact, hd, hB, maxProximityDistance, levelOf,
          jsOr_some, hlt]
      · simp only [setProximityActivation, hact, maxProximityDistance, hB]
        rw [if_pos hd, if_neg (by simpa using hlt)]
        simp only [levelOf, hact]
        exact (max_eq_left (not_lt.mp hlt)).symm
  have h5 : 20 ≤ d → setProximityActivation s id d now = s := by
    intro hd
    simp [setProximityActivation, maxProximityDistance, not_lt.mpr hd]
  have h2 : levelOf s id ≤ levelOf (setProximityActivation s id d now) id := by
    rcases lt_or_le d 20 with hd | hd
    · rw [h1 hd]
      exact le_max_left _ _
    · rw [h5 hd]
  have h3 : d < 20 → levelOf s id < (1 - d / 20) * (3 / 10) →
      decayStartOf (setProximityActivation s id d now) id = some (now + 2000) := by
    intro hd hlt
    rcases hact : s.activations id with _ | a
    · simp [setProximityActivation, hact, hd, hB, maxProximityDistance, decayStartOf]
    · rw [levelOf, hact] at hlt
      simp [setProximityActivation, hact, hd, hB, maxProximityDistance, decayStartOf, hlt]
  have h4 : d < 20 → ∀ a, s.activations id = some a →
      (1 - d / 20) * (3 / 10) ≤ a.level → setProximityActivation s id d now = s := by
    intro hd a hact hle
    simp only [setProximityActivation, hact, maxProximityDistance, hB]
    rw [if_pos hd, if_neg (by simpa using not_lt.mpr hle)]
  exact ⟨h1, h2, h3, h4, h5⟩

/-- Witness for C8: a proximity call at distance 10 on the fresh store
raises the stored level to the boost. -/
theorem setProximityActivation_spec_witness :
    initialActivationState.proximityBoost = 3 / 10 ∧ (10 : ℚ) < 20 ∧
    levelOf (setProximityActivation initialActivationState "t1" 10 0) "t1"
      = max (levelOf initialActivationState "t1") ((1 - 10 / 20) * (3 / 10)) :=
  ⟨rfl, by norm_num,
   (setProximityActivation_spec initialActivationState "t1" 10 0 rfl).1 (by norm_num)⟩

/-- Claim C9: activating the same id twice with the same intensity and
timestamp leaves exactly the state a single activation produces. -/
theorem activateNode_idempotent (s : ActivationState) (id : String) (intensity now : ℚ) :
    activateNode (activateNode s id intensity now) id intensity now
      = activateNode s id intensity now := by
  simp only [activateNode]
  congr 1
  funext k
  by_cases h : k = id <;> simp [h]

/-- Claim C10: while timeline mode is inactive, every creation timestamp is
reported visible and at full opacity, whatever the stored times are. -/
theorem timeline_inactive_full_visibility (s : TimelineState) (createdAt : ℚ)
    (h : s.isActive = false) :
    timelineIsVisible s createdAt = true ∧ getVisibility s createdAt = 1 := by
  simp [timelineIsVisible, getVisibility, h]

/-- Witness for C10: the inactive scenario timeline shows an arbitrary
timestamp fully. -/
theorem timeline_inactive_full_visibility_witness :
    scenarioTimeline.isActive = false ∧
    (timelineIsVisible scenarioTimeline 9999 = true ∧
     getVisibility scenarioTimeline 9999 = 1) :=
  ⟨rfl, timeline_inactive_full_visibility scenarioTimeline 9999 rfl⟩

/-- Claim C5: every axon the renderer receives carries endpoint thoughts
that belong to the snapshot and match the connection's ids, and a
connection with a missing endpoint never appears in the rendered set. -/
theorem renderedAxons_endpoints (thoughts : List Thought) (conns : List Connection) :
    (∀ (c : Connection) (fromT toT : Thought),
        (c, fromT, toT) ∈ renderedAxons thoughts conns →
        fromT ∈ thoughts ∧ fromT.id = c.fromThought ∧
        toT ∈ thoughts ∧ toT.id = c.toThought) ∧
    (∀ c : Connection,
        ((∀ t ∈ thoughts, t.id ≠ c.fromThought) ∨ (∀ t ∈ thoughts, t.id ≠ c.toThought)) →
        ∀ fromT toT, (c, fromT, toT) ∉ renderedAxons thoughts conns) := by
  constructor
  · intro c fromT toT hmem
    rw [renderedAxons, List.mem_filterMap] at hmem
    obtain ⟨c', hc', heq⟩ := hmem
    rcases hf : thoughts.find? (fun t => t.id == c'.fromThought) with _ | fT <;>
      rcases ht : thoughts.find? (fun t => t.id == c'.toThought) with _ | tT <;>
      rw [hf, ht] at heq <;> simp at heq
    obtain ⟨rfl, rfl, rfl⟩ := heq
    refine ⟨List.mem_of_find?_eq_some hf, ?_, List.mem_of_find?_eq_some ht, ?_⟩
    · simpa using List.find?_some hf
    · simpa using List.find?_some ht
  · intro c hmiss fromT toT hmem
    rw [renderedAxons, List.mem_filterMap] at hmem
    obtain ⟨c', hc', heq⟩ := hmem
    rcases hf : thoughts.find? (fun t => t.id == c'.fromThought) with _ | fT <;>
      rcases ht : thoughts.find? (fun t => t.id == c'.toThought) with _ | tT <;>
      rw [hf, ht] at heq <;> simp at heq
    obtain ⟨rfl, rfl, rfl⟩ := heq
    rcases hmiss with hm | hm
    · exact hm fT (List.mem_of_find?_eq_some hf) (by simpa using List.find?_some hf)
    · exact hm tT (List.mem_of_find?_eq_some ht) (by simpa using List.find?_some ht)

/-- Witness for C5: a connection whose from-endpoint is absent from the
scenario snapshot is dropped from the rendered set. -/
theorem renderedAxons_endpoints_witness :
    ((∀ t ∈ scenarioThoughts, t.id ≠ "missing") ∨
      (∀ t ∈ scenarioThoughts, t.id ≠ "t1")) ∧
    (⟨⟨"cX", "missing", "t1", 1⟩, ⟨"t1", "", 0, 0, 0, 0, 0⟩, ⟨"t1", "", 0, 0, 0, 0, 0⟩⟩ :
        Connection × Thought × Thought) ∉
      renderedAxons scenarioThoughts [⟨"cX", "missing", "t1", 1⟩] :=
  ⟨Or.inl (by decide),
   (renderedAxons_endpoints scenarioThoughts [⟨"cX", "missing", "t1", 1⟩]).2
      ⟨"cX", "missing", "t1", 1⟩ (Or.inl (by decide)) _ _⟩

/-- An id absent from a list has no index in it. -/
lemma indexOf?_eq_none_of_not_mem {l : List String} {a : String} (h : a ∉ l) :
    l.indexOf? a = none := by
  simp only [List.indexOf?, List.findIdx?_eq_none_iff]
  intro x hx
  simp only [beq_eq_false_iff_ne]
  exact fun hxa => h (hxa ▸ hx)

/-- Claim C6 (counterexample): with active path [a, b], synthesis b and
cursor at 0, the terminus b lies strictly ahead of the cursor yet reads the
0.3 pre-arrival synthesis value, not the claimed 0.15 foreshadowing value. -/
theorem thinkingActivation_terminus_ahead :
    (⟨["a", "b"], 0, true, some "b"⟩ : ThinkingState).activePath.indexOf? "b" = some 1 ∧
    (⟨["a", "b"], 0, true, some "b"⟩ : ThinkingState).pathProgress = 0 ∧
    getThinkingActivation ⟨["a", "b"], 0, true, some "b"⟩ "b" = 3 / 10 ∧
    (3 / 10 : ℚ) ≠ 3 / 20 := by
  refine ⟨by decide, rfl, ?_, by norm_num⟩
  norm_num +decide [getThinkingActivation, List.indexOf?]

/-- Claim C6 (amended): while thinking, a thought off the path reads 0; a
non-terminus thought at or behind the cursor reads the falloff
max(0.4, 1 - (k - index) * 0.15); a non-terminus thought strictly ahead of
the cursor reads the fixed 0.15 foreshadowing value; and the terminus reads
1 once the cursor has reached the last position and 0.3 before that. -/
theorem getThinkingActivation_spec (s : ThinkingState) (id : String)
    (hThink : s.isThinking = true) :
    (id ∉ s.activePath → getThinkingActivation s id = 0) ∧
    (∀ i, s.activePath.indexOf? id = some i → s.synthesisId ≠ some id →
        i ≤ s.pathProgress →
        getThinkingActivation s id
          = max (2 / 5) (1 - ((s.pathProgress - i : Nat) : ℚ) * (3 / 20))) ∧
    (∀ i, s.activePath.indexOf? id = some i → s.synthesisId ≠ some id →
        s.pathProgress < i → getThinkingActivation s id = 3 / 20) ∧
    (∀ i, s.activePath.indexOf? id = some i → s.synthesisId = some id →
        getThinkingActivation s id
          = if s.activePath.length - 1 ≤ s.pathProgress then 1 else 3 / 10) := by
  refine ⟨?_, ?_, ?_, ?_⟩
  · intro hmem
    simp [getThinkingActivation, hThink, indexOf?_eq_none_of_not_mem hmem]
  · intro i hidx hsyn hle
    simp [getThinkingActivation, hThink, hidx, hsyn, hle]
  · intro i hidx hsyn hgt
    simp [getThinkingActivation, hThink, hidx, hsyn, not_le.mpr hgt]
  · intro i hidx hsyn
    simp [getThinkingActivation, hThink, hidx, hsyn]

/-- Witness for C6: on path [a, b] with synthesis b and the cursor at the
last position, the terminus reads full activation. -/
theorem getThinkingActivation_spec_witness :
    (⟨["a", "b"], 1, true, some "b"⟩ : ThinkingState).isThinking = true ∧
    getThinkingActivation ⟨["a", "b"], 1, true, some "b"⟩ "b" = 1 := by
  refine ⟨rfl, ?_⟩
  have h := (getThinkingActivation_spec ⟨["a", "b"], 1, true, some "b"⟩ "b" rfl).2.2.2
      1 (by decide) rfl
  simpa using h

/-- When every walked connection's far endpoint exists in the snapshot and
the accumulated path plus the incoming endpoints is duplicate-free, the
walk appends every endpoint in order. -/
lemma foldl_pathStep (newId : String) (thoughts : List Thought) :
    ∀ (l : List Connection) (p : List String),
      (∀ c ∈ l, ∃ t ∈ thoughts, t.id = otherEnd newId c) →
      (p ++ l.map (otherEnd newId)).Nodup →
      l.foldl (pathStep newId thoughts) p = p ++ l.map (otherEnd newId) := by
  intro l
  induction l with
  | nil => intro p _ _; simp
  | cons c cs ih =>
    intro p hex hnd
    obtain ⟨t, htmem, htid⟩ := hex c (List.mem_cons_self c cs)
    rcases hf : thoughts.find? (fun t => t.id == otherEnd newId c) with _ | t'
    · rw [List.find?_eq_none] at hf
      exact absurd (by simp [htid]) (hf t htmem)
    · have hnotmem : otherEnd newId c ∉ p := by
        intro hmem
        rw [List.nodup_append] at hnd
        exact hnd.2.2 hmem (by simp)
      have hstep : pathStep newId thoughts p c = p ++ [otherEnd newId c] := by
        simp [pathStep, hf, hnotmem]
      rw [List.foldl_cons, hstep,
        ih (p ++ [otherEnd newId c]) (fun c' hc' => hex c' (List.mem_cons_of_mem _ hc'))
          (by simpa [List.append_assoc] using hnd)]
      simp

/-- Claim C4 (amended): when every connection touching the new thought
leads to a distinct existing thought other than the new one, the derived
path is exactly the far endpoints of the strongest min(connectedCount,
maxPathLength - 1) connections in descending strength order followed by the
new thought id, hence has length min(connectedCount, maxPathLength - 1) + 1,
has no duplicates, and ends in the new thought id; and the two-connection
scenario yields [t1, t2, t9]. -/
theorem findReasoningPath_spec (newId : String) (thoughts : List Thought)
    (connections : List Connection)
    (hex : ∀ c ∈ connectedTo newId connections, ∃ t ∈ thoughts, t.id = otherEnd newId c)
    (hnd : ((connectedTo newId connections).map (otherEnd newId)).Nodup)
    (hnew : newId ∉ (connectedTo newId connections).map (otherEnd newId)) :
    findReasoningPath newId thoughts connections
      = (((connectedTo newId connections).insertionSort strengthDescRel).take
          (maxPathLength - 1)).map (otherEnd newId) ++ [newId] ∧
    (findReasoningPath newId thoughts connections).length
      = min (connectedTo newId connections).length (maxPathLength - 1) + 1 ∧
    (findReasoningPath newId thoughts connections).Nodup ∧
    (findReasoningPath newId thoughts connections).getLast? = some newId ∧
    List.Sorted strengthDescRel
      (((connectedTo newId connections).insertionSort strengthDescRel).take
        (maxPathLength - 1)) ∧
    findReasoningPath "t9" scenarioThoughts scenarioConnections = ["t1", "t2", "t9"] := by
  haveI : IsTotal Connection strengthDescRel :=
    ⟨fun a b => le_total b.strength a.strength⟩
  haveI : IsTrans Connection strengthDescRel :=
    ⟨fun _ _ _ hab hbc => le_trans hbc hab⟩
  set sc := connectedTo newId connections with hsc
  have hperm : (sc.insertionSort strengthDescRel).Perm sc :=
    List.perm_insertionSort _ _
  have hmapnd : ((sc.insertionSort strengthDescRel).map (otherEnd newId)).Nodup :=
    (List.Perm.nodup_iff (hperm.map _)).mpr hnd
  have htake_nd :
      (((sc.insertionSort strengthDescRel).take (maxPathLength - 1)).map
        (otherEnd newId)).Nodup := by
    rw [List.map_take]
    exact (List.take_sublist _ _).nodup hmapnd
  have hsubset :
      ((sc.insertionSort strengthDescRel).take (maxPathLength - 1)).map (otherEnd newId)
        ⊆ sc.map (otherEnd newId) := by
    intro x hx
    rw [List.mem_map] at hx
    obtain ⟨c, hc, rfl⟩ := hx
    exact List.mem_map_of_mem _ (hperm.subset (List.take_subset _ _ hc))
  have hnew' : newId ∉
      ((sc.insertionSort strengthDescRel).take (maxPathLength - 1)).map (otherEnd newId) :=
    fun h => hnew (hsubset h)
  have hsorted : List.Sorted strengthDescRel
      ((sc.insertionSort strengthDescRel).take (maxPathLength - 1)) :=
    List.Pairwise.sublist (List.take_sublist _ _)
      (List.sorted_insertionSort strengthDescRel sc)
  have hscenario : findReasoningPath "t9" scenarioThoughts scenarioConnections
      = ["t1", "t2", "t9"] := by
    norm_num +decide [findReasoningPath, connectedTo, scenarioConnections, scenarioThoughts,
      List.insertionSort, List.orderedInsert, strengthDescRel, pathStep, otherEnd,
      maxPathLength, List.find?]
  have heq : findReasoningPath newId thoughts connections
      = ((sc.insertionSort strengthDescRel).take (maxPathLength - 1)).map (otherEnd newId)
        ++ [newId] := by
    by_cases hempty : sc.length = 0
    · have h0 : sc = [] := List.length_eq_zero.mp hempty
      rw [findReasoningPath, ← hsc, h0]
      simp [List.insertionSort]
    · rw [findReasoningPath, ← hsc, if_neg hempty]
      have htake : (sc.insertionSort strengthDescRel).take
          (min (sc.insertionSort strengthDescRel).length (maxPathLength - 1))
          = (sc.insertionSort strengthDescRel).take (maxPathLength - 1) := by
        rcases le_total (sc.insertionSort strengthDescRel).length (maxPathLength - 1)
          with h | h
        · rw [min_eq_left h, List.take_length, List.take_of_length_le h]
        · rw [min_eq_right h]
      simp only [htake]
      rw [foldl_pathStep newId thoughts _ []
        (fun c hc => hex c (hperm.subset (List.take_subset _ _ hc)))
        (by simpa using htake_nd)]
      simp
  have hlen : (findReasoningPath newId thoughts connections).length
      = min sc.length (maxPathLength - 1) + 1 := by
    rw [heq]
    simp only [List.length_append, List.length_map, List.length_take,
      List.length_singleton, hperm.length_eq]
    omega
  refine ⟨heq, hlen, ?_, ?_, hsorted, hscenario⟩
  · rw [heq]
    refine htake_nd.append (List.nodup_singleton _) ?_
    intro x hx hx'
    rw [List.mem_singleton] at hx'
    exact hnew' (hx' ▸ hx)
  · rw [heq]
    exact List.getLast?_concat _

/-- Claim C4 (counterexample): in the two-connection scenario the path has
length 3 while min(connectedCount, maxPathLength) = min(2, 4) = 2, so the
claimed length formula min(connectedCount, maxPathLength) is false. -/
theorem findReasoningPath_length_counterexample :
    (findReasoningPath "t9" scenarioThoughts scenarioConnections).length = 3 ∧
    (connectedTo "t9" scenarioConnections).length = 2 ∧
    min (connectedTo "t9" scenarioConnections).length maxPathLength = 2 ∧
    (findReasoningPath "t9" scenarioThoughts scenarioConnections).length
      ≠ min (connectedTo "t9" scenarioConnections).length maxPathLength := by
  have h : findReasoningPath "t9" scenarioThoughts scenarioConnections
      = ["t1", "t2", "t9"] := by
    norm_num +decide [findReasoningPath, connectedTo, scenarioConnections, scenarioThoughts,
      List.insertionSort, List.orderedInsert, strengthDescRel, pathStep, otherEnd,
      maxPathLength, List.find?]
  refine ⟨by rw [h]; rfl, by decide, by decide, ?_⟩
  rw [h]
  decide

/-- Witness for C4: the amended theorem applied to the scenario, whose
connections all lead to distinct existing thoughts. -/
theorem findReasoningPath_spec_witness :
    findReasoningPath "t9" scenarioThoughts scenarioConnections = ["t1", "t2", "t9"] :=
  (findReasoningPath_spec "t9" scenarioThoughts scenarioConnections
    (by decide) (by decide) (by decide)).2.2.2.2.2

end TheMind
